import Mathlib

/-!
Verification of the metric-computation and error-classification engine of
`back_end/evaluate.py` (a QA-evaluation script): token-level answer F1,
Hits@1 counting, the hallucination-correction rate, and the error-category
decision tree.

Strings are modelled as `List Char`; Python `set`s of strings as
`Finset (List Char)`; Python floats as exact rationals `ℚ`.  A Python
division that can raise `ZeroDivisionError` is modelled as `Option ℚ`
(`none` = the exception).  Each definition mirrors one Python function of
the source and is named after it.
-/

/-- Python `\w` (a word character: letter, digit or underscore).  Exact on
ASCII; characters beyond ASCII (e.g. CJK, which Python counts as word
characters) are taken as word characters.  Punctuation relevant to the
evaluated corpus is ASCII. -/
def isWordChar (c : Char) : Bool :=
  c.isAlphanum || c == '_' || decide (c.val ≥ 0x80)

/-- Python `\s` / `str.split()` whitespace: space, tab, newline, carriage
return, vertical tab, form feed. -/
def isSpaceChar (c : Char) : Bool :=
  c == ' ' || c == '\t' || c == '\n' || c == '\r' ||
  c == Char.ofNat 11 || c == Char.ofNat 12

/-- Helper of `splitWs`: accumulates the current token (reversed) while
scanning. -/
def splitWsAux : List Char → List Char → List (List Char)
  | [], acc => if acc = [] then [] else [acc.reverse]
  | c :: rest, acc =>
    if isSpaceChar c then
      if acc = [] then splitWsAux rest []
      else acc.reverse :: splitWsAux rest []
    else splitWsAux rest (c :: acc)

/-- Python `str.split()` with no argument: the maximal runs of
non-whitespace characters, empty runs dropped. -/
def splitWs (l : List Char) : List (List Char) :=
  splitWsAux l []

/-- Python `"sep".join(xs)`. -/
def joinSep (sep : List Char) : List (List Char) → List Char
  | [] => []
  | [x] => x
  | x :: y :: ys => x ++ sep ++ joinSep sep (y :: ys)

/-- Model of `normalize_answer(text)` (evaluate.py lines 12-16): empty text gives the
empty set; otherwise lower-case the text, replace every character that is
neither a word character nor whitespace by a space
(`re.sub(r'[^\w\s]', ' ', ...)`), split on whitespace and collect the
tokens into a set. -/
def normalize_answer (text : List Char) : Finset (List Char) :=
  if text = [] then ∅
  else
    (splitWs ((text.map Char.toLower).map
      (fun c => if !isWordChar c && !isSpaceChar c then ' ' else c))).toFinset

/-- Model of `answer_f1(pred, gold)` (evaluate.py lines 18-28), float arithmetic
modelled exactly over ℚ. -/
def answer_f1 (pred : List Char) (gold : List (List Char)) : ℚ :=
  let pred_tokens := normalize_answer pred
  let gold_tokens := normalize_answer (joinSep [' '] gold)
  if gold_tokens = ∅ then (if pred_tokens = ∅ then 1 else 0)
  else if pred_tokens = ∅ then 0
  else
    let common := pred_tokens ∩ gold_tokens
    let precision : ℚ := (common.card : ℚ) / (pred_tokens.card : ℚ)
    let recallVal : ℚ := (common.card : ℚ) / (gold_tokens.card : ℚ)
    if precision + recallVal > 0 then 2 * precision * recallVal / (precision + recallVal)
    else 0

/-- Transcribed from the spec's description of `answer_f1` (claim C1's
wording): 1.0 when both normalized token sets are empty, 0.0 when exactly
one of them is, otherwise the harmonic mean of precision and recall over
the intersection, 0.0 when precision + recall = 0. -/
def answerF1Spec (pred : List Char) (gold : List (List Char)) : ℚ :=
  let pred_tokens := normalize_answer pred
  let gold_tokens := normalize_answer (joinSep [' '] gold)
  if gold_tokens = ∅ ∧ pred_tokens = ∅ then 1
  else if gold_tokens = ∅ then 0
  else if pred_tokens = ∅ then 0
  else
    let common := pred_tokens ∩ gold_tokens
    let precision : ℚ := (common.card : ℚ) / (pred_tokens.card : ℚ)
    let recallVal : ℚ := (common.card : ℚ) / (gold_tokens.card : ℚ)
    if precision + recallVal = 0 then 0
    else 2 * precision * recallVal / (precision + recallVal)

/-- The four error categories of `classify_error`. -/
inductive ErrCat where
  | pattern_mismatch
  | kg_missing
  | correct
  | wrong_retrieval
deriving DecidableEq

/-- Model of `classify_error(question, golden, system_pred, matched)` (evaluate.py
lines 30-37): fixed-priority decision tree, first match wins. -/
def classify_error (question : List Char) (golden system_pred : List (List Char))
    (matched : Bool) : ErrCat :=
  if !matched then .pattern_mismatch
  else if system_pred = [] then .kg_missing
  else if system_pred.toFinset = golden.toFinset then .correct
  else .wrong_retrieval

/-- Head-literal check: does the pattern literal `lit` stand at the
head of `s`? -/
def leadsWith : List Char → List Char → Bool
  | [], _ => true
  | _ :: _, [] => false
  | a :: as, b :: bs => a == b && leadsWith as bs

/-- Does `s` start with a character that `.` of a regex matches (any
character except a newline)?  Used for a `(.+)` that may run to the end of
the string. -/
def nnHead : List Char → Bool
  | [] => false
  | c :: _ => c != '\n'

/-- Semantics of `re.search(lit(.+), q)`: some position of `q` carries the literal `lit`
followed by at least one non-newline character. -/
def litDotPlus (lit : List Char) : List Char → Bool
  | [] => false
  | c :: rest =>
    (leadsWith lit (c :: rest) && nnHead ((c :: rest).drop lit.length)) ||
    litDotPlus lit rest

/-- Semantics of `re.search((.+)lit, q)`: some position of `q` carries the literal `lit`,
is not the start of `q`, and the character right before it is not a newline
(that character then serves as the `(.+)` group). -/
def dotPlusLit (lit : List Char) : List Char → Bool
  | [] => false
  | c :: rest => (c != '\n' && leadsWith lit rest) || dotPlusLit lit rest

/-- Match of `(.+)lit2` anchored at the start of `s`: a non-empty run of
non-newline characters followed by the literal `lit2`. -/
def midDotPlus (lit2 : List Char) : List Char → Bool
  | [] => false
  | c :: rest => c != '\n' && (leadsWith lit2 rest || midDotPlus lit2 rest)

/-- Semantics of `re.search(lit1(.+)lit2, q)`: some position of `q` carries `lit1`, then a
non-empty run of non-newline characters, then `lit2`. -/
def litDotPlusLit (lit1 lit2 : List Char) : List Char → Bool
  | [] => false
  | c :: rest =>
    (leadsWith lit1 (c :: rest) && midDotPlus lit2 ((c :: rest).drop lit1.length)) ||
    litDotPlusLit lit1 lit2 rest

/-- The pattern-match flag of evaluate.py lines 73-79: `any` over
`re.search` of the five recognized question patterns
`歌曲(.+)的作词人是`, `(.+)是谁唱的`, `谁唱的(.+)`, `谁作词的(.+)`,
`(.+)是哪个专辑的`. -/
def matchedQuestion (q : List Char) : Bool :=
  litDotPlusLit ['歌', '曲'] ['的', '作', '词', '人', '是'] q ||
  dotPlusLit ['是', '谁', '唱', '的'] q ||
  litDotPlus ['谁', '唱', '的'] q ||
  litDotPlus ['谁', '作', '词', '的'] q ||
  dotPlusLit ['是', '哪', '个', '专', '辑', '的'] q

/-- One test case together with the response of the external
`query_handler` call for its question (the QA component is a black box
outside this file's scope; its response is carried on the record:
`res_state` is `res["state"]`, `res_data` is `res["data"]`). -/
structure TestCase where
  question : List Char
  golden_answer : List (List Char)
  llm_answer : List Char
  res_state : Int
  res_data : List (List Char)

/-- Line 69 of evaluate.py:
`system_ans = res["data"] if res["state"] == 0 else []`. -/
def system_ans (tc : TestCase) : List (List Char) :=
  if tc.res_state = 0 then tc.res_data else []

/-- Line 90 of evaluate.py: `llm_correct = set(normalize_answer(llm_ans)) >= set([g.lower() for g in
golden])`: the baseline's normalized token set is a
superset of the lower-cased gold answer strings. -/
def llm_correct (tc : TestCase) : Bool :=
  decide ((tc.golden_answer.map (fun g => g.map Char.toLower)).toFinset ⊆
    normalize_answer tc.llm_answer)

/-- Line 93 of evaluate.py, `set(system_ans) >= set(golden)`: the raw system
answer set is a superset of the raw gold answer set. -/
def sys_covers_gold (tc : TestCase) : Bool :=
  decide (tc.golden_answer.toFinset ⊆ (system_ans tc).toFinset)

/-- The running totals of `evaluate()` that the claims are about (evaluate.py
lines 49-52). -/
structure EvalState where
  f1_total : ℚ
  hits_at_1 : ℕ
  hdr_numerator : ℕ
  hdr_denominator : ℕ

/-- The totals before the first test case. -/
def initState : EvalState := ⟨0, 0, 0, 0⟩

/-- The body of the `for test_case in TEST_CASES` loop restricted to the
running totals (evaluate.py lines 80-94): accumulate the case's F1 over the
comma-joined system answer, count a hit when the system answer list is
non-empty and its raw-string set meets the gold set, and update the
hallucination-correction counters gated on `llm_correct`. -/
def evalStep (s : EvalState) (tc : TestCase) : EvalState :=
  let f1 := answer_f1 (joinSep [',', ' '] (system_ans tc)) tc.golden_answer
  let s1 := { s with f1_total := s.f1_total + f1 }
  let s2 :=
    if system_ans tc ≠ [] ∧ (system_ans tc).toFinset ∩ tc.golden_answer.toFinset ≠ ∅
    then { s1 with hits_at_1 := s1.hits_at_1 + 1 } else s1
  if llm_correct tc then s2
  else
    let s3 := { s2 with hdr_denominator := s2.hdr_denominator + 1 }
    if sys_covers_gold tc then { s3 with hdr_numerator := s3.hdr_numerator + 1 }
    else s3

/-- The whole loop of `evaluate()` over a corpus. -/
def evalFold (cases : List TestCase) : EvalState :=
  cases.foldl evalStep initState

/-- Python `/` on floats whose right operand may be zero: `none` models the
raised `ZeroDivisionError`. -/
def pydiv (a b : ℚ) : Option ℚ :=
  if b = 0 then none else some (a / b)

/-- Line 118 of evaluate.py, `avg_f1 = f1_total / total * 100`, `total` being
the corpus size; the division carries no zero guard. -/
def avg_f1 (cases : List TestCase) : Option ℚ :=
  (pydiv (evalFold cases).f1_total (cases.length : ℚ)).map (· * 100)

/-- Line 119 of evaluate.py, `hits_at_1_rate = hits_at_1 / total * 100`; the
division carries no zero guard. -/
def hits_rate (cases : List TestCase) : Option ℚ :=
  (pydiv ((evalFold cases).hits_at_1 : ℚ) (cases.length : ℚ)).map (· * 100)

/-- Line 120 of evaluate.py, `hdr = hdr_numerator / hdr_denominator * 100 if hdr_denominator > 0 else
0.0` (evaluate.py line 120): the only final ratio with a zero guard. -/
def hdr_rate (cases : List TestCase) : Option ℚ :=
  let s := evalFold cases
  if s.hdr_denominator > 0 then
    (pydiv (s.hdr_numerator : ℚ) (s.hdr_denominator : ℚ)).map (· * 100)
  else some 0

/-- The question `谁唱的夜曲` ("who sang Nocturne") of the spec's scenario. -/
def nocturneQ : List Char := ['谁', '唱', '的', '夜', '曲']

/-- Stepping with `evalStep` adds the case's F1 to `f1_total`. -/
lemma evalStep_f1_total (s : EvalState) (tc : TestCase) :
    (evalStep s tc).f1_total =
      s.f1_total + answer_f1 (joinSep [',', ' '] (system_ans tc)) tc.golden_answer := by
  simp only [evalStep]
  split_ifs <;> rfl

/-- Stepping with `evalStep` increments `hits_at_1` exactly when the raw system answer list
is non-empty and meets the raw gold set. -/
lemma evalStep_hits (s : EvalState) (tc : TestCase) :
    (evalStep s tc).hits_at_1 = s.hits_at_1 +
      (if system_ans tc ≠ [] ∧ (system_ans tc).toFinset ∩ tc.golden_answer.toFinset ≠ ∅
       then 1 else 0) := by
  simp only [evalStep]
  split_ifs <;> simp

/-- Stepping with `evalStep` increments `hdr_denominator` exactly when the baseline answer
is not correct. -/
lemma evalStep_den (s : EvalState) (tc : TestCase) :
    (evalStep s tc).hdr_denominator =
      s.hdr_denominator + (if llm_correct tc then 0 else 1) := by
  simp only [evalStep]
  split_ifs <;> rfl

/-- Stepping with `evalStep` increments `hdr_numerator` exactly when the baseline answer is
not correct and the raw system answer set covers the raw gold set. -/
lemma evalStep_num (s : EvalState) (tc : TestCase) :
    (evalStep s tc).hdr_numerator =
      s.hdr_numerator + (if !llm_correct tc && sys_covers_gold tc then 1 else 0) := by
  simp only [evalStep]
  split_ifs <;> simp_all

/-- Folding the loop body counts baseline-wrong cases into
`hdr_denominator`. -/
lemma foldl_den (cases : List TestCase) :
    ∀ s : EvalState, (List.foldl evalStep s cases).hdr_denominator =
      s.hdr_denominator + cases.countP (fun tc => !llm_correct tc) := by
  induction cases with
  | nil => intro s; simp
  | cons tc rest ih =>
    intro s
    simp only [List.foldl_cons, List.countP_cons, ih, evalStep_den]
    cases h : llm_correct tc <;> simp [h] <;> omega

/-- Folding the loop body counts baseline-wrong, system-covering cases into
`hdr_numerator`. -/
lemma foldl_num (cases : List TestCase) :
    ∀ s : EvalState, (List.foldl evalStep s cases).hdr_numerator =
      s.hdr_numerator + cases.countP (fun tc => !llm_correct tc && sys_covers_gold tc) := by
  induction cases with
  | nil => intro s; simp
  | cons tc rest ih =>
    intro s
    simp only [List.foldl_cons, List.countP_cons, ih, evalStep_num]
    cases h : (!llm_correct tc && sys_covers_gold tc) <;> simp [h] <;> omega

/-- Folding the loop body counts hit cases into `hits_at_1`. -/
lemma foldl_hits (cases : List TestCase) :
    ∀ s : EvalState, (List.foldl evalStep s cases).hits_at_1 =
      s.hits_at_1 + cases.countP (fun tc =>
        decide (system_ans tc ≠ [] ∧
          (system_ans tc).toFinset ∩ tc.golden_answer.toFinset ≠ ∅)) := by
  induction cases with
  | nil => intro s; simp
  | cons tc rest ih =>
    intro s
    simp only [List.foldl_cons, List.countP_cons, ih, evalStep_hits]
    by_cases h : system_ans tc ≠ [] ∧
        (system_ans tc).toFinset ∩ tc.golden_answer.toFinset ≠ ∅ <;>
      simp [h] <;> omega

/-- Value of `answer_f1("a b", ["a"])`: precision 1/2, recall 1, harmonic mean 2/3. -/
lemma f1_ab_a : answer_f1 ['a', ' ', 'b'] [['a']] = 2 / 3 := by
  simp only [answer_f1]
  rw [if_neg (by decide), if_neg (by decide)]
  rw [show (normalize_answer ['a', ' ', 'b'] ∩
      normalize_answer (joinSep [' '] [['a']])).card = 1 by decide]
  rw [show (normalize_answer ['a', ' ', 'b']).card = 2 by decide]
  rw [show (normalize_answer (joinSep [' '] [['a']])).card = 1 by decide]
  norm_num

/-- Value of `answer_f1("a", ["a","b"])`: precision 1, recall 1/2, harmonic mean 2/3. -/
lemma f1_a_ab : answer_f1 ['a'] [['a'], ['b']] = 2 / 3 := by
  simp only [answer_f1]
  rw [if_neg (by decide), if_neg (by decide)]
  rw [show (normalize_answer ['a'] ∩
      normalize_answer (joinSep [' '] [['a'], ['b']])).card = 1 by decide]
  rw [show (normalize_answer ['a']).card = 1 by decide]
  rw [show (normalize_answer (joinSep [' '] [['a'], ['b']])).card = 2 by decide]
  norm_num

/-- C2: `classify_error` realizes the fixed-priority decision tree:
`pattern_mismatch` exactly when the pattern-match flag is false (whatever the
answers are); otherwise `kg_missing` exactly when the system answer list is
empty; otherwise `correct` exactly when the system answer set equals the gold
answer set as exact strings; otherwise `wrong_retrieval`.  The four
characterizations are mutually exclusive and cover every case. -/
theorem classify_error_decision_tree (q : List Char)
    (golden sys : List (List Char)) (m : Bool) :
    (classify_error q golden sys m = .pattern_mismatch ↔ m = false) ∧
    (classify_error q golden sys m = .kg_missing ↔ m = true ∧ sys = []) ∧
    (classify_error q golden sys m = .correct ↔
      m = true ∧ sys ≠ [] ∧ sys.toFinset = golden.toFinset) ∧
    (classify_error q golden sys m = .wrong_retrieval ↔
      m = true ∧ sys ≠ [] ∧ sys.toFinset ≠ golden.toFinset) := by
  cases m <;> simp only [classify_error] <;> split_ifs <;> simp_all

/-- C10: the result of `classify_error` does not depend on its `question`
argument: two calls differing only in the question string agree. -/
theorem classify_error_ignores_question (q1 q2 : List Char)
    (golden sys : List (List Char)) (m : Bool) :
    classify_error q1 golden sys m = classify_error q2 golden sys m := rfl

/-- C8 (counterexample): the spec asserts
`answer_f1("a b", ["a"]) ≠ answer_f1("a", ["a","b"])`, but the two values
are equal — the harmonic mean is symmetric in precision and recall. -/
theorem answer_f1_pair_equal :
    answer_f1 ['a', ' ', 'b'] [['a']] = answer_f1 ['a'] [['a'], ['b']] :=
  f1_ab_a.trans f1_a_ab.symm

/-- C8 (amended): both `answer_f1("a b", ["a"])` and
`answer_f1("a", ["a","b"])` evaluate to 2/3; swapping prediction and gold
swaps precision with recall and leaves the harmonic mean unchanged, so this
pair does not witness asymmetry. -/
theorem answer_f1_pair_two_thirds :
    answer_f1 ['a', ' ', 'b'] [['a']] = 2 / 3 ∧
    answer_f1 ['a'] [['a'], ['b']] = 2 / 3 :=
  ⟨f1_ab_a, f1_a_ab⟩

/-- C9 (counterexample): the question `谁唱的夜曲` does match a recognized
pattern (`谁唱的(.+)` — `re.search` finds the literal at position 0 followed
by `夜曲`), so with that flag the classifier can return `correct`; it is not
`pattern_mismatch` as the spec's scenario asserts. -/
theorem nocturne_matches_and_can_be_correct :
    matchedQuestion nocturneQ = true ∧
    classify_error nocturneQ [['周', '杰', '伦']] [['周', '杰', '伦']]
      (matchedQuestion nocturneQ) = ErrCat.correct := by
  constructor <;> decide

/-- C9 (amended): `谁唱的夜曲` matches the pattern `谁唱的(.+)`, so the
pattern-match flag computed for it is true and it is never classified
`pattern_mismatch`; its category is decided by the rest of the tree from the
system and gold answers. -/
theorem nocturne_never_pattern_mismatch :
    matchedQuestion nocturneQ = true ∧
    ∀ golden sys : List (List Char),
      decide (classify_error nocturneQ golden sys (matchedQuestion nocturneQ) =
        ErrCat.pattern_mismatch) = false := by
  refine ⟨by decide, ?_⟩
  intro golden sys
  rw [show matchedQuestion nocturneQ = true from by decide]
  simp only [classify_error, Bool.not_true, Bool.false_eq_true, if_false]
  split_ifs <;> decide

/-- C5 (counterexample): on the empty corpus the average-F1 and hits-rate
computations divide by `total = 0` with no guard — the division raises
(`none` models `ZeroDivisionError`), so not every legitimately-zero
denominator is guarded. -/
theorem avg_divides_by_zero_on_empty_corpus :
    avg_f1 [] = none ∧ hits_rate [] = none := ⟨rfl, rfl⟩

/-- C5 (amended): only the hallucination-correction ratio carries a zero
guard.  The average F1 and hits rate divide by the corpus size and raise
exactly on the empty corpus; the hallucination-correction rate always
yields a value, 0.0 when its denominator is zero. -/
theorem zero_guard_only_on_hdr (cases : List TestCase) :
    (avg_f1 cases = none ↔ cases = []) ∧
    (hits_rate cases = none ↔ cases = []) ∧
    (hdr_rate cases).isSome = true ∧
    ((evalFold cases).hdr_denominator = 0 → hdr_rate cases = some 0) := by
  refine ⟨?_, ?_, ?_, ?_⟩
  · simp [avg_f1, pydiv, List.length_eq_zero]
  · simp [hits_rate, pydiv, List.length_eq_zero]
  · simp only [hdr_rate]
    split_ifs with h
    · simp [pydiv, Nat.pos_iff_ne_zero.mp h]
    · simp
  · intro h
    simp [hdr_rate, h]

/-- C1: `answer_f1` computes exactly what the spec describes — 1.0 when both
normalized token sets are empty, 0.0 when exactly one of them is empty,
otherwise the harmonic mean `2·p·r/(p+r)` of precision `|common|/|pred|`
and recall `|common|/|gold|` over the intersection of the normalized token
sets, with 0.0 when `p + r = 0`. -/
theorem answer_f1_matches_spec (p : List Char) (g : List (List Char)) :
    answer_f1 p g = answerF1Spec p g := by
  simp only [answer_f1, answerF1Spec]
  by_cases hg : normalize_answer (joinSep [' '] g) = ∅
  · by_cases hp : normalize_answer p = ∅ <;> simp [hg, hp]
  · by_cases hp : normalize_answer p = ∅
    · simp [hg, hp]
    · simp only [hg, hp, and_false, if_false, ite_false]
      have h0 : (0 : ℚ) ≤
          ((normalize_answer p ∩ normalize_answer (joinSep [' '] g)).card : ℚ) /
            ((normalize_answer p).card : ℚ) +
          ((normalize_answer p ∩ normalize_answer (joinSep [' '] g)).card : ℚ) /
            ((normalize_answer (joinSep [' '] g)).card : ℚ) := by positivity
      rcases h0.lt_or_eq with h | h
      · rw [if_pos h, if_neg h.ne']
      · rw [if_neg (h ▸ lt_irrefl 0), if_pos h.symm]

/-- C4: `answer_f1` always lies in the closed interval [0, 1]. -/
theorem answer_f1_in_unit_interval (p : List Char) (g : List (List Char)) :
    0 ≤ answer_f1 p g ∧ answer_f1 p g ≤ 1 := by
  simp only [answer_f1]
  by_cases hg : normalize_answer (joinSep [' '] g) = ∅
  · by_cases hp : normalize_answer p = ∅ <;> simp [hg, hp]
  · by_cases hp : normalize_answer p = ∅
    · simp [hg, hp]
    · simp only [hg, hp, if_false, ite_false]
      have hA : 0 < (normalize_answer p).card :=
        Finset.card_pos.mpr (Finset.nonempty_iff_ne_empty.mpr hp)
      have hB : 0 < (normalize_answer (joinSep [' '] g)).card :=
        Finset.card_pos.mpr (Finset.nonempty_iff_ne_empty.mpr hg)
      have hCA : (normalize_answer p ∩ normalize_answer (joinSep [' '] g)).card ≤
          (normalize_answer p).card :=
        Finset.card_le_card Finset.inter_subset_left
      have hCB : (normalize_answer p ∩ normalize_answer (joinSep [' '] g)).card ≤
          (normalize_answer (joinSep [' '] g)).card :=
        Finset.card_le_card Finset.inter_subset_right
      set pr : ℚ :=
        ((normalize_answer p ∩ normalize_answer (joinSep [' '] g)).card : ℚ) /
          ((normalize_answer p).card : ℚ) with hpr
      set rc : ℚ :=
        ((normalize_answer p ∩ normalize_answer (joinSep [' '] g)).card : ℚ) /
          ((normalize_answer (joinSep [' '] g)).card : ℚ) with hrc
      have hpr0 : 0 ≤ pr := by rw [hpr]; positivity
      have hrc0 : 0 ≤ rc := by rw [hrc]; positivity
      have hpr1 : pr ≤ 1 := by
        rw [hpr, div_le_one (by exact_mod_cast hA)]
        exact_mod_cast hCA
      have hrc1 : rc ≤ 1 := by
        rw [hrc, div_le_one (by exact_mod_cast hB)]
        exact_mod_cast hCB
      split_ifs with h
      · refine ⟨div_nonneg (by positivity) h.le, ?_⟩
        rw [div_le_one h]
        nlinarith
      · norm_num

/-- C3: the hallucination-correction denominator counts exactly the cases
whose baseline normalized token set fails to cover the lower-cased gold
strings; the numerator counts exactly those of them whose raw system answer
set covers the raw gold set; the final rate is numerator/denominator·100,
and 0.0 when the denominator is zero. -/
theorem hdr_counts_baseline_wrong (cases : List TestCase) :
    (evalFold cases).hdr_denominator = cases.countP (fun tc => !llm_correct tc) ∧
    (evalFold cases).hdr_numerator =
      cases.countP (fun tc => !llm_correct tc && sys_covers_gold tc) ∧
    hdr_rate cases = some (if (evalFold cases).hdr_denominator = 0 then 0
      else ((evalFold cases).hdr_numerator : ℚ) /
        ((evalFold cases).hdr_denominator : ℚ) * 100) := by
  refine ⟨?_, ?_, ?_⟩
  · simpa [evalFold, initState] using foldl_den cases initState
  · simpa [evalFold, initState] using foldl_num cases initState
  · simp only [hdr_rate]
    rcases Nat.eq_zero_or_pos (evalFold cases).hdr_denominator with h | h
    · simp [h]
    · rw [if_pos h, if_neg (Nat.pos_iff_ne_zero.mp h)]
      simp [pydiv, Nat.cast_eq_zero, Nat.pos_iff_ne_zero.mp h]

/-- C6: at every step of the loop (i.e. after any initial segment of the
corpus) the hallucination-correction denominator is at most the number of
cases processed and the numerator is at most the denominator. -/
theorem hdr_counters_never_exceed (cases : List TestCase) (n : ℕ) :
    (evalFold (cases.take n)).hdr_denominator ≤ (cases.take n).length ∧
    (evalFold (cases.take n)).hdr_numerator ≤
      (evalFold (cases.take n)).hdr_denominator := by
  have hden : (evalFold (cases.take n)).hdr_denominator =
      (cases.take n).countP (fun tc => !llm_correct tc) := by
    simpa [evalFold, initState] using foldl_den (cases.take n) initState
  have hnum : (evalFold (cases.take n)).hdr_numerator =
      (cases.take n).countP (fun tc => !llm_correct tc && sys_covers_gold tc) := by
    simpa [evalFold, initState] using foldl_num (cases.take n) initState
  constructor
  · rw [hden]
    exact List.countP_le_length _
  · rw [hden, hnum]
    exact List.countP_mono_left fun x _ h => ((Bool.and_eq_true _ _).mp h).1

/-- C7: a case adds to the Hits@1 count exactly when the system answer list
is non-empty and its set of raw answer strings meets the set of raw gold
answer strings — over any corpus the count equals the number of such
cases. -/
theorem hits_counts_raw_intersection (cases : List TestCase) :
    (evalFold cases).hits_at_1 = cases.countP (fun tc =>
      decide (system_ans tc ≠ [] ∧
        (system_ans tc).toFinset ∩ tc.golden_answer.toFinset ≠ ∅)) := by
  simpa [evalFold, initState] using foldl_hits cases initState
